import Mathlib

/-!
# Render-thread core of the VdbResearch overlay renderer

A shallow embedding of `Source/Runtime/Private/Rendering/VdbResearchRendering.cpp`.

* Machine integers are `Nat` / `Int` with explicit reduction modulo `2 ^ 32`.
* Proxy pointers (`FVdbResearchSceneProxy*`) are addresses (`Nat`); what the frame reads
  through a pointer is given by a memory `ProxyPtr → FVdbResearchSceneProxy`.
* The render graph is a log: every call `Render_RenderThread` makes on the graph builder, the
  denoiser and the compositor is appended to a list of `RenderCommand`s, in program order.
* Host-engine services whose code is not part of the file (`TArray::Sort`, the renderer
  module's delegate list) are parameters or small explicit models, documented where declared.
* Single-precision scalars are idealised as rationals; only their order is ever used.
-/

namespace VdbResearch

/-! ## Machine integers -/

/-- Number of values of a `uint32`. -/
def UINT32_MOD : Nat := 4294967296

/-- Integral conversion `int32 → uint32` (value modulo `2 ^ 32`). -/
def toUInt32 (x : Int) : Nat := (x % 4294967296).toNat

/-- Range of an `int32`. -/
def IsInt32 (x : Int) : Prop := -2147483648 ≤ x ∧ x ≤ 2147483647

/-- Unsigned 32-bit subtraction `a - b`. -/
def subUInt32 (a b : Nat) : Nat := (a + UINT32_MOD - b % UINT32_MOD) % UINT32_MOD

/-! ## Vectors, matrices, the view -/

/-- Three-component vector (`FVector`). -/
structure FVector where
  X : ℚ
  Y : ℚ
  Z : ℚ

/-- Row-major 4x4 matrix (`FMatrix`), `M i j` being row `i`, column `j`. -/
structure FMatrix where
  M : Fin 4 → Fin 4 → ℚ

/-- Host `FMatrix::TransformPosition`: the point as the row vector `(X, Y, Z, 1)` multiplied by
the matrix, the homogeneous coordinate dropped. -/
def FMatrix.TransformPosition (A : FMatrix) (V : FVector) : FVector :=
  { X := V.X * A.M 0 0 + V.Y * A.M 1 0 + V.Z * A.M 2 0 + A.M 3 0
    Y := V.X * A.M 0 1 + V.Y * A.M 1 1 + V.Z * A.M 2 1 + A.M 3 1
    Z := V.X * A.M 0 2 + V.Y * A.M 1 2 + V.Z * A.M 2 2 + A.M 3 2 }

/-- Host enumeration `ERayTracingRenderMode`; the file only tests for `PathTracing`. -/
inductive ERayTracingRenderMode where
  | Disabled
  | PathTracing
  | RayTracingDebug
deriving DecidableEq, Repr

/-- The part of `FSceneViewState` the frame reads: the host's progressive sample counter
(`uint32 PathTracingSPP`). -/
structure FSceneViewState where
  PathTracingSPP : Nat

/-- The part of `FSceneView` / `FViewInfo` the frame reads. `ViewState` is a nullable pointer;
`PathTracingSamplesPerPixel` is `FinalPostProcessSettings.PathTracingSamplesPerPixel` (`int32`). -/
structure FSceneView where
  ViewMatrix : FMatrix
  RayTracingRenderMode : ERayTracingRenderMode
  ViewState : Option FSceneViewState
  PathTracingSamplesPerPixel : Int

/-! ## Accumulation state (lines 232-254) -/

/-- Line 233: `UsePathTracing = View->RayTracingRenderMode == ERayTracingRenderMode::PathTracing`. -/
def UsePathTracing (View : FSceneView) : Bool :=
  View.RayTracingRenderMode == ERayTracingRenderMode.PathTracing

/-- Lines 232-247: `NumAccumulations`. It starts at `0`; the block that reads the host counter is
compiled only under `#if RHI_RAYTRACING` (the build flag is the first argument), runs only in
path-tracing mode and only when the view-state pointer is non-null. -/
def NumAccumulations (RHI_RAYTRACING : Bool) (View : FSceneView) : Nat :=
  if RHI_RAYTRACING then
    if UsePathTracing View then
      match View.ViewState with
      | some ViewState =>
        if ViewState.PathTracingSPP ≠ 0 then subUInt32 ViewState.PathTracingSPP 1 else 0
      | none => 0
    else 0
  else 0

/-- Line 250: `bool IsEven = NumAccumulations % 2;` (integer to `bool`: non-zero is `true`). -/
def IsEven (NumAccumulations : Nat) : Bool := NumAccumulations % 2 != 0

/-- Lines 252-254: the `int32` operand chosen by the conditional is converted to `uint32`, then
`FMath::Max(MaxSPP, 1u)`. -/
def MaxSPP (SamplesPerPixelCVar : Int) (View : FSceneView) : Nat :=
  let MaxSPP := toUInt32 (if SamplesPerPixelCVar > -1 then SamplesPerPixelCVar
                          else View.PathTracingSamplesPerPixel)
  max MaxSPP 1

/-- Address of a scene proxy (`FVdbResearchSceneProxy*`). -/
abbrev ProxyPtr := Nat

/-- What one frame reads through a proxy pointer: `IsVisible(View)` for the frame's view,
`GetBounds().GetSphere().Center`, and the two nullable volume handles of `GetParams()`. -/
structure FVdbResearchSceneProxy where
  IsVisible : Bool
  BoundsSphereCenter : FVector
  VdbDensity : Option Nat
  VdbTemperature : Option Nat

/-- Contents of the proxies' memory during one frame. -/
abbrev ProxyMemory := ProxyPtr → FVdbResearchSceneProxy

/-- Modelled from the spec: the render-graph texture handles the frame manipulates. What
`Proxy->GetOrCreateRenderTarget(GraphBuilder, RtSize, EvenFrame)` returns is one of the proxy's
pair of owned offscreen targets, named by the proxy and the selector it was asked for; what
`VdbDenoiser::ApplyDenoising` returns for a texture is the denoised texture. -/
inductive FRDGTextureRef where
  | RenderTarget (Proxy : ProxyPtr) (EvenFrame : Bool)
  | Denoised (Texture : FRDGTextureRef)
deriving DecidableEq, Repr

/-- Calls recorded by one frame, in program order. `AddPass` carries the fields of
`FVdbResearchPS::FParameters` that depend on the accumulation state and the two permutation
flags. -/
inductive RenderCommand where
  | GetOrCreateRenderTarget (Proxy : ProxyPtr) (EvenFrame : Bool)
  | CreateVdbUniformBuffer (Proxy : ProxyPtr)
  | AddPass (Proxy : ProxyPtr) (PrevAccumTex : FRDGTextureRef) (NumAccumulations : Nat)
      (RenderTarget0 : FRDGTextureRef) (PathTracing : Bool) (UseTemperature : Bool)
  | ApplyDenoising (Texture : FRDGTextureRef)
  | CompositeFullscreen (Texture : FRDGTextureRef)
deriving DecidableEq, Repr

/-- Lines 222-227: the sort predicate, on the dereferenced proxies. -/
def SortPredicate (ViewMat : FMatrix) (Lhs Rhs : FVdbResearchSceneProxy) : Bool :=
  decide ((ViewMat.TransformPosition Lhs.BoundsSphereCenter).Z >
    (ViewMat.TransformPosition Rhs.BoundsSphereCenter).Z)

/-- Host `TArray::Sort(Predicate)` on an array of proxy pointers; the predicate is applied to the
pointed-to proxies. The algorithm belongs to the host engine, so it is a parameter. -/
abbrev TArraySort := (ProxyPtr → ProxyPtr → Bool) → List ProxyPtr → List ProxyPtr

/-- Line 221: `VdbProxies.FilterByPredicate(IsVisible(View))`. -/
def VisibleVdbProxies (Mem : ProxyMemory) (VdbProxies : List ProxyPtr) : List ProxyPtr :=
  VdbProxies.filter (fun Proxy => (Mem Proxy).IsVisible)

/-- Lines 221-227: filter, then sort with the depth predicate. -/
def SortedVdbProxies (SortFn : TArraySort) (Mem : ProxyMemory) (View : FSceneView)
    (VdbProxies : List ProxyPtr) : List ProxyPtr :=
  SortFn (fun Lhs Rhs => SortPredicate View.ViewMatrix (Mem Lhs) (Mem Rhs))
    (VisibleVdbProxies Mem VdbProxies)

/-- Line 262: `NumAccumulations < MaxSPP && Proxy->GetParams().VdbDensity`. -/
def ShouldRender (Mem : ProxyMemory) (NumAcc MaxSamples : Nat) (Proxy : ProxyPtr) : Bool :=
  decide (NumAcc < MaxSamples) && (Mem Proxy).VdbDensity.isSome

/-- Lines 258-326: the body of the loop for one proxy. -/
def RenderProxy (Mem : ProxyMemory) (UsePT : Bool) (NumAcc MaxSamples : Nat) (Even : Bool)
    (Proxy : ProxyPtr) : List RenderCommand :=
  let VdbCurrRenderTexture := FRDGTextureRef.RenderTarget Proxy Even
  let VdbPrevRenderTexture := FRDGTextureRef.RenderTarget Proxy (!Even)
  [RenderCommand.GetOrCreateRenderTarget Proxy Even,
   RenderCommand.GetOrCreateRenderTarget Proxy (!Even)] ++
  (if ShouldRender Mem NumAcc MaxSamples Proxy then
    [RenderCommand.CreateVdbUniformBuffer Proxy,
     RenderCommand.AddPass Proxy VdbPrevRenderTexture NumAcc VdbCurrRenderTexture UsePT
       (Mem Proxy).VdbTemperature.isSome] ++
    (if !UsePT then
      [RenderCommand.ApplyDenoising VdbCurrRenderTexture,
       RenderCommand.CompositeFullscreen (FRDGTextureRef.Denoised VdbCurrRenderTexture)]
    else
      [RenderCommand.CompositeFullscreen VdbCurrRenderTexture])
  else
    [RenderCommand.CompositeFullscreen VdbCurrRenderTexture])

/-- Lines 208-328: `FVdbResearchRendering::Render_RenderThread`, returning the commands it
records. `SamplesPerPixelCVar` is the value of `r.VdbResearch.MaxSamplesPerPixel`. -/
def Render_RenderThread (RHI_RAYTRACING : Bool) (SortFn : TArraySort) (Mem : ProxyMemory)
    (SamplesPerPixelCVar : Int) (VdbProxies : List ProxyPtr) (View : FSceneView) :
    List RenderCommand :=
  if VdbProxies.isEmpty then []
  else
    (SortedVdbProxies SortFn Mem View VdbProxies).flatMap
      (RenderProxy Mem (UsePathTracing View) (NumAccumulations RHI_RAYTRACING View)
        (MaxSPP SamplesPerPixelCVar View) (IsEven (NumAccumulations RHI_RAYTRACING View)))

/-- The proxy owning a texture handle. -/
def FRDGTextureRef.Owner : FRDGTextureRef → ProxyPtr
  | .RenderTarget Proxy _ => Proxy
  | .Denoised Texture => Texture.Owner

/-- The proxy whose target a command composites, if the command is a composite. -/
def RenderCommand.Composited : RenderCommand → Option ProxyPtr
  | .CompositeFullscreen Texture => some Texture.Owner
  | _ => none

/-- The proxy a command records a raster pass for, if the command is `AddPass`. -/
def RenderCommand.PassOf : RenderCommand → Option ProxyPtr
  | .AddPass Proxy _ _ _ _ _ => some Proxy
  | _ => none

/-- The proxy a command builds a parameter block for, if it is `CreateVdbUniformBuffer`. -/
def RenderCommand.ParamsOf : RenderCommand → Option ProxyPtr
  | .CreateVdbUniformBuffer Proxy => some Proxy
  | _ => none

/-- Contract of `TArray::Sort` used by the frame: for a predicate that is a strict weak order,
the result is a rearrangement of the input with no element placed after one it must precede. -/
def IsStrictWeakOrder (Pred : ProxyPtr → ProxyPtr → Bool) : Prop :=
  (∀ a b, Pred a b = true → Pred b a = false) ∧
  (∀ a b c, Pred a c = true → Pred a b = true ∨ Pred b c = true)

/-- See `IsStrictWeakOrder`. -/
def SortContract (SortFn : TArraySort) : Prop :=
  ∀ Pred l, IsStrictWeakOrder Pred →
    (SortFn Pred l).Perm l ∧ (SortFn Pred l).Pairwise (fun a b => Pred b a = false)

/-- A sort that fulfils the contract and keeps tied elements in their input order: insertion
sort on "must not come after". -/
def stableSort : TArraySort :=
  fun Pred l => List.insertionSort (fun a b => Pred b a = false) l

/-- Host constant `INDEX_NONE`. -/
def INDEX_NONE : Int := -1

/-- Host `TArray::Find(Item)`: index of the first element equal to `Item`, or `INDEX_NONE`. -/
def Find (A : List ProxyPtr) (Item : ProxyPtr) : Int :=
  if Item ∈ A then (A.indexOf Item : Int) else INDEX_NONE

/-- Host `TArray::Remove(Item)`: removes every element equal to `Item`, keeping the order of the
others. -/
def Remove (A : List ProxyPtr) (Item : ProxyPtr) : List ProxyPtr :=
  A.filter (fun x => x != Item)

/-- Modelled from the spec: the host macro `check(Expr)`, whose definition is not part of the
file. A violated check is a contract violation on which the operation fails: `none` is a failed
check, after which nothing else of the command runs. -/
def check (Expr : Bool) : Option Unit := if Expr then some () else none

/-- Lines 333-337: the render command enqueued by `AddVdbProxy`, run on the registry:
`check(VdbProxies.Find(Proxy) == INDEX_NONE)`, then `Emplace` appends at the end. -/
def AddVdbProxy (VdbProxies : List ProxyPtr) (Proxy : ProxyPtr) : Option (List ProxyPtr) :=
  (check (Find VdbProxies Proxy == INDEX_NONE)).bind (fun _ => some (VdbProxies ++ [Proxy]))

/-- Lines 345-349: the render command enqueued by `RemoveVdbProxy`, run on the registry. -/
def RemoveVdbProxy (VdbProxies : List ProxyPtr) (Proxy : ProxyPtr) : List ProxyPtr :=
  let Idx := Find VdbProxies Proxy
  if Idx ≠ INDEX_NONE then Remove VdbProxies Proxy else VdbProxies

/-- A registry command as submitted to the render command queue. -/
inductive RegistryCommand where
  | Add (Proxy : ProxyPtr)
  | Remove (Proxy : ProxyPtr)
deriving DecidableEq, Repr

/-- The proxy a registry command is about. -/
def RegistryCommand.Proxy : RegistryCommand → ProxyPtr
  | .Add Proxy => Proxy
  | .Remove Proxy => Proxy

/-- Running one queued command. -/
def Execute (VdbProxies : List ProxyPtr) : RegistryCommand → Option (List ProxyPtr)
  | .Add Proxy => AddVdbProxy VdbProxies Proxy
  | .Remove Proxy => some (RemoveVdbProxy VdbProxies Proxy)

/-- The render command queue runs the commands in submission order; a rejected `Add` stops the
run. -/
def RunCommands : List ProxyPtr → List RegistryCommand → Option (List ProxyPtr)
  | VdbProxies, [] => some VdbProxies
  | VdbProxies, c :: cs => (Execute VdbProxies c).bind (fun R => RunCommands R cs)

/-- The most recent command about `Proxy` in a sequence, if there is one. -/
def LastCommand (Commands : List RegistryCommand) (Proxy : ProxyPtr) : Option RegistryCommand :=
  Commands.reverse.find? (fun c => c.Proxy == Proxy)

/-- Whether the most recent command about `Proxy` is an `Add`. -/
def LastIsAdd (Commands : List RegistryCommand) (Proxy : ProxyPtr) : Bool :=
  match LastCommand Commands Proxy with
  | some (.Add _) => true
  | _ => false

/-! ## The unit-cube buffers (lines 42-99) -/

/-- `FFilterVertex` inside the resource array: a field is `none` until it is assigned
(`SetNumUninitialized` leaves the entries unwritten). -/
structure FFilterVertex where
  Position : Option (ℚ × ℚ × ℚ × ℚ)
  UV : Option (ℚ × ℚ)

/-- An assignment to a field of `Vertices[i]`. -/
def assignAt (f : FFilterVertex → FFilterVertex) : Nat → List FFilterVertex → List FFilterVertex
  | _, [] => []
  | 0, v :: vs => f v :: vs
  | i + 1, v :: vs => v :: assignAt f i vs

/-- `Vertices[i].Position = P`. -/
def SetPosition (i : Nat) (P : ℚ × ℚ × ℚ × ℚ) (Vertices : List FFilterVertex) :
    List FFilterVertex :=
  assignAt (fun v => { v with Position := some P }) i Vertices

/-- `Vertices[i].UV = T`. -/
def SetUV (i : Nat) (T : ℚ × ℚ) (Vertices : List FFilterVertex) : List FFilterVertex :=
  assignAt (fun v => { v with UV := some T }) i Vertices

/-- Line 50: `BboxMin(0, 0, 0)`. -/
def BboxMin : FVector := { X := 0, Y := 0, Z := 0 }

/-- Line 51: `BboxMax(1, 1, 1)`. -/
def BboxMax : FVector := { X := 1, Y := 1, Z := 1 }

/-- Lines 47-62: the vertex array handed to `RHICreateVertexBuffer`, the sixteen assignments
applied in source order to eight unwritten entries. -/
def UnitCubeVertices : List FFilterVertex :=
  let Vertices := List.replicate 8 { Position := none, UV := none : FFilterVertex }
  -- Front face
  let Vertices := SetPosition 0 (BboxMin.X, BboxMin.Y, BboxMin.Z, 1) Vertices
  let Vertices := SetUV 0 (0, 0) Vertices
  let Vertices := SetPosition 1 (BboxMax.X, BboxMin.Y, BboxMin.Z, 1) Vertices
  let Vertices := SetUV 1 (1, 0) Vertices
  let Vertices := SetPosition 2 (BboxMin.X, BboxMax.Y, BboxMin.Z, 1) Vertices
  let Vertices := SetUV 2 (0, 1) Vertices
  let Vertices := SetPosition 3 (BboxMax.X, BboxMax.Y, BboxMin.Z, 1) Vertices
  let Vertices := SetUV 3 (1, 1) Vertices
  -- Back face
  let Vertices := SetPosition 4 (BboxMin.X, BboxMin.Y, BboxMax.Z, 1) Vertices
  let Vertices := SetUV 0 (1, 1) Vertices
  let Vertices := SetPosition 5 (BboxMax.X, BboxMin.Y, BboxMax.Z, 1) Vertices
  let Vertices := SetUV 1 (1, 0) Vertices
  let Vertices := SetPosition 6 (BboxMin.X, BboxMax.Y, BboxMax.Z, 1) Vertices
  let Vertices := SetUV 2 (0, 1) Vertices
  let Vertices := SetPosition 7 (BboxMax.X, BboxMax.Y, BboxMax.Z, 1) Vertices
  let Vertices := SetUV 3 (0, 0) Vertices
  Vertices

/-- Lines 71-89: the index array. -/
def Indices : List Nat :=
  [0, 1, 2, 1, 3, 2, 1, 5, 3, 3, 5, 7, 3, 7, 6, 2, 3, 6,
   2, 4, 0, 2, 6, 4, 0, 4, 5, 1, 0, 5, 5, 4, 6, 5, 6, 7]

/-! ## The overlay hook (lines 101-175) -/

/-- Modelled from the spec: the host's opaque delegate handle (`FDelegateHandle`), an
identifier with `0` meaning "no delegate". -/
structure FDelegateHandle where
  ID : Nat
deriving DecidableEq, Repr

/-- Modelled from the spec: the handle-validity check `FDelegateHandle::IsValid`. -/
def FDelegateHandle.IsValid (Handle : FDelegateHandle) : Bool := Handle.ID != 0

/-- Modelled from the spec: resetting the handle, `FDelegateHandle::Reset`. -/
def FDelegateHandle.Reset (_Handle : FDelegateHandle) : FDelegateHandle := { ID := 0 }

/-- Modelled from the spec: the host renderer module's overlay extension point (registration
returns an opaque handle used for removal). Its state is the list of registered delegates, each
with its handle identifier and the address of the object it is bound to, and the last
identifier handed out. -/
structure IRendererModule where
  OverlayRenderDelegates : List (Nat × Nat)
  LastID : Nat

/-- Modelled from the spec: `RegisterOverlayRenderDelegate` stores the delegate under a fresh
non-zero identifier and returns the handle. -/
def IRendererModule.RegisterOverlayRenderDelegate (Module : IRendererModule) (BoundTo : Nat) :
    IRendererModule × FDelegateHandle :=
  ({ OverlayRenderDelegates := Module.OverlayRenderDelegates ++ [(Module.LastID + 1, BoundTo)]
     LastID := Module.LastID + 1 },
   { ID := Module.LastID + 1 })

/-- Modelled from the spec: `RemoveOverlayRenderDelegate` drops the delegate stored under the
handle. -/
def IRendererModule.RemoveOverlayRenderDelegate (Module : IRendererModule)
    (Handle : FDelegateHandle) : IRendererModule :=
  { Module with
    OverlayRenderDelegates := Module.OverlayRenderDelegates.filter (fun e => e.1 != Handle.ID) }

/-- The `FVdbResearchRendering` object (its address `This`, its two buffer references, its
delegate handle) together with what `FModuleManager::GetModulePtr("Renderer")` returns: the
renderer module, or `none` when it is not loaded. A buffer reference is `none` when null or
invalid, else the data it was created from. -/
structure FVdbResearchRendering where
  This : Nat
  VertexBufferRHI : Option (List FFilterVertex)
  IndexBufferRHI : Option (List Nat)
  RenderDelegateHandle : FDelegateHandle
  RendererModule : Option IRendererModule

/-- Lines 42-99: `InitBuffers`. -/
def InitBuffers (S : FVdbResearchRendering) : FVdbResearchRendering :=
  let S := if S.VertexBufferRHI.isNone then { S with VertexBufferRHI := some UnitCubeVertices }
           else S
  if S.IndexBufferRHI.isNone then { S with IndexBufferRHI := some Indices } else S

/-- Lines 148-160: `InitDelegate`. -/
def InitDelegate (S : FVdbResearchRendering) : FVdbResearchRendering :=
  if !S.RenderDelegateHandle.IsValid then
    match S.RendererModule with
    | some RendererModule =>
      let Registered := RendererModule.RegisterOverlayRenderDelegate S.This
      { S with RendererModule := some Registered.1, RenderDelegateHandle := Registered.2 }
    | none => S
  else S

/-- Lines 162-175: `ReleaseDelegate`. -/
def ReleaseDelegate (S : FVdbResearchRendering) : FVdbResearchRendering :=
  if S.RenderDelegateHandle.IsValid then
    let S1 :=
      match S.RendererModule with
      | some RendererModule =>
        let Module := RendererModule.RemoveOverlayRenderDelegate S.RenderDelegateHandle
        { S with RendererModule := some Module }
      | none => S
    { S1 with RenderDelegateHandle := S1.RenderDelegateHandle.Reset }
  else S

/-- Lines 101-107: `InitRendering`, which is what `Init` runs on the rendering thread. -/
def InitRendering (S : FVdbResearchRendering) : FVdbResearchRendering :=
  InitDelegate (InitBuffers S)

/-- Lines 109-114: `ReleaseRendering`, which is what `Release` runs on the rendering thread. -/
def ReleaseRendering (S : FVdbResearchRendering) : FVdbResearchRendering :=
  ReleaseDelegate S

/-- A lifecycle call executed on the rendering thread. -/
inductive LifecycleCall where
  | Init
  | Release
deriving DecidableEq, Repr

/-- Running one lifecycle call. -/
def LifecycleCall.run : LifecycleCall → FVdbResearchRendering → FVdbResearchRendering
  | .Init, S => InitRendering S
  | .Release, S => ReleaseRendering S

/-- Running a sequence of lifecycle calls in order. -/
def RunLifecycle (S : FVdbResearchRendering) (Calls : List LifecycleCall) :
    FVdbResearchRendering :=
  Calls.foldl (fun T c => c.run T) S

/-- The delegates registered with the host that are bound to this object. -/
def OwnDelegates (S : FVdbResearchRendering) : List (Nat × Nat) :=
  match S.RendererModule with
  | some RendererModule => RendererModule.OverlayRenderDelegates.filter (fun e => e.2 == S.This)
  | none => []

/-- How many times this object's callback is registered with the host. -/
def RegisteredCount (S : FVdbResearchRendering) : Nat := (OwnDelegates S).length

/-- Invariant of the hook while the renderer module is loaded: the module is there, and the
object's registrations are exactly the one named by a valid handle, none for an invalid handle. -/
def HookInvariant (S : FVdbResearchRendering) : Prop :=
  S.RendererModule.isSome = true ∧
  OwnDelegates S =
    (if S.RenderDelegateHandle.IsValid then [(S.RenderDelegateHandle.ID, S.This)] else [])

/-- An object before its first `Init`: no buffers, an invalid handle, and a loaded renderer
module holding two delegates of other objects. -/
def freshRendering : FVdbResearchRendering :=
  { This := 7
    VertexBufferRHI := none
    IndexBufferRHI := none
    RenderDelegateHandle := { ID := 0 }
    RendererModule := some { OverlayRenderDelegates := [(1, 3), (2, 4)], LastID := 2 } }

/-- Identity view matrix with the Z axis negated: a camera at the origin looking down world `-Z`,
view-space depth being `-z`. -/
def lookDownNegZ : FMatrix :=
  { M := ![![1, 0, 0, 0], ![0, 1, 0, 0], ![0, 0, -1, 0], ![0, 0, 0, 1]] }

/-- A view with the given mode, counter and post-process budget. -/
def mkView (mode : ERayTracingRenderMode) (state : Option Nat) (budget : Int) : FSceneView :=
  { ViewMatrix := lookDownNegZ
    RayTracingRenderMode := mode
    ViewState := state.map FSceneViewState.mk
    PathTracingSamplesPerPixel := budget }

/-- A proxy with its bounds centre on the Z axis. -/
def mkProxy (visible : Bool) (z : ℚ) (density : Option Nat) : FVdbResearchSceneProxy :=
  { IsVisible := visible
    BoundsSphereCenter := { X := 0, Y := 0, Z := z }
    VdbDensity := density
    VdbTemperature := none }

/-- Example scene: proxies `1`, `2`, `3` are visible with centres `(0,0,-5)`, `(0,0,-10)`,
`(0,0,-2)`; proxy `3` has no density; every other address is an invisible proxy. -/
def sceneMem : ProxyMemory := fun p =>
  if p = 1 then mkProxy true (-5) (some 100)
  else if p = 2 then mkProxy true (-10) (some 101)
  else if p = 3 then mkProxy true (-2) none
  else mkProxy false 0 none

/-- Example registry, in registration order. -/
def sceneRegistry : List ProxyPtr := [1, 2, 3, 4]

/-- Example view: path tracing, host counter `5`, post-process budget `16`. -/
def sceneView : FSceneView := mkView ERayTracingRenderMode.PathTracing (some 5) 16

/-- View-space depth compared by the sort predicate. -/
def ViewDepth (Mem : ProxyMemory) (View : FSceneView) (Proxy : ProxyPtr) : ℚ :=
  (View.ViewMatrix.TransformPosition (Mem Proxy).BoundsSphereCenter).Z

/-- Example view with the identity view matrix: view-space depth is the world `z`. -/
def identityView : FSceneView :=
  { ViewMatrix := { M := ![![1, 0, 0, 0], ![0, 1, 0, 0], ![0, 0, 1, 0], ![0, 0, 0, 1]] }
    RayTracingRenderMode := ERayTracingRenderMode.Disabled
    ViewState := none
    PathTracingSamplesPerPixel := 16 }

/-! # Theorems -/

/-! ## Accumulation count -/

theorem subUInt32_one (c : Nat) (h0 : c ≠ 0) (hc : c < 4294967296) : subUInt32 c 1 = c - 1 := by
  unfold subUInt32 UINT32_MOD
  omega

theorem NumAccumulations_no_raytracing (View : FSceneView) : NumAccumulations false View = 0 := by
  simp [NumAccumulations]

theorem NumAccumulations_of_counter (View : FSceneView) (c : Nat) (hc : c < 4294967296)
    (hmode : View.RayTracingRenderMode = ERayTracingRenderMode.PathTracing)
    (hstate : View.ViewState = some (FSceneViewState.mk c)) :
    NumAccumulations true View = (if c > 0 then c - 1 else 0) := by
  by_cases h0 : c = 0
  · subst h0
    simp [NumAccumulations, UsePathTracing, hmode, hstate]
  · have hsub := subUInt32_one c h0 hc
    have hpos : 0 < c := Nat.pos_of_ne_zero h0
    simp [NumAccumulations, UsePathTracing, hmode, hstate, h0, hsub, hpos]

/-- C1. In path-tracing mode with a view state whose progressive counter is `c` (a `uint32`), the
accumulation count is `c - 1` when `c > 0` and `0` when `c = 0`, and never exceeds `c`; outside
path-tracing mode the count is `0` for every counter, view state and build. The counter is only
read in builds with `RHI_RAYTRACING`, the builds in which the host has it. -/
theorem accumulation_count (View : FSceneView) (c : Nat) (hc : c < 4294967296) :
    (View.RayTracingRenderMode = ERayTracingRenderMode.PathTracing →
      View.ViewState = some (FSceneViewState.mk c) →
        NumAccumulations true View = (if c > 0 then c - 1 else 0) ∧
        NumAccumulations true View ≤ c) ∧
    (View.RayTracingRenderMode ≠ ERayTracingRenderMode.PathTracing →
      ∀ RHI_RAYTRACING, NumAccumulations RHI_RAYTRACING View = 0) := by
  refine ⟨fun hmode hstate => ?_, fun hmode flag => ?_⟩
  · have h := NumAccumulations_of_counter View c hc hmode hstate
    refine ⟨h, ?_⟩
    rw [h]
    split <;> omega
  · cases flag
    · exact NumAccumulations_no_raytracing View
    · simp [NumAccumulations, UsePathTracing, hmode]

/-- Counter `5` gives count `4`, counter `0` gives `0`, and a view outside path-tracing mode gives
`0`. -/
theorem accumulation_count_witness :
    NumAccumulations true (mkView ERayTracingRenderMode.PathTracing (some 5) 16) = 4 ∧
    NumAccumulations true (mkView ERayTracingRenderMode.PathTracing (some 0) 16) = 0 ∧
    NumAccumulations true (mkView ERayTracingRenderMode.Disabled (some 5) 16) = 0 :=
  ⟨((accumulation_count (mkView ERayTracingRenderMode.PathTracing (some 5) 16) 5
      (by decide)).1 rfl rfl).1,
   ((accumulation_count (mkView ERayTracingRenderMode.PathTracing (some 0) 16) 0
      (by decide)).1 rfl rfl).1,
   (accumulation_count (mkView ERayTracingRenderMode.Disabled (some 5) 16) 5
      (by decide)).2 (by decide) true⟩

/-! ## Maximum samples per pixel -/

theorem toUInt32_of_nonneg (x : Int) (h0 : 0 ≤ x) (h1 : x ≤ 2147483647) :
    (toUInt32 x : Int) = x := by
  unfold toUInt32
  omega

theorem toUInt32_of_neg (x : Int) (h0 : x < 0) (h1 : -2147483648 ≤ x) :
    (toUInt32 x : Int) = x + 4294967296 := by
  unfold toUInt32
  omega

/-- With override `-1` and view budget `-1` the frame's `MaxSPP` is `4294967295`, not
`max(1, -1) = 1`. -/
theorem MaxSPP_counterexample :
    IsInt32 (-1) ∧
    ¬ ((MaxSPP (-1) (mkView ERayTracingRenderMode.Disabled none (-1)) : Int) = max 1 (-1)) ∧
    MaxSPP (-1) (mkView ERayTracingRenderMode.Disabled none (-1)) = 4294967295 := by
  refine ⟨by unfold IsInt32; omega, ?_, ?_⟩ <;>
    simp [MaxSPP, mkView, toUInt32]

/-- With a negative override and a negative view budget the conversion to `uint32` happens
before the floor: `MaxSPP` is the budget plus `2 ^ 32`. -/
theorem MaxSPP_of_negative_budget (o : Int) (View : FSceneView) (ho : o < 0)
    (hb : IsInt32 View.PathTracingSamplesPerPixel) (hneg : View.PathTracingSamplesPerPixel < 0) :
    (MaxSPP o View : Int) = View.PathTracingSamplesPerPixel + 4294967296 := by
  have hgt : ¬ o > -1 := by omega
  have h1 := toUInt32_of_neg _ hneg hb.1
  have h2 := hb.1
  simp only [MaxSPP, hgt, if_false]
  omega

/-- C2 (amended). For `int32` override `o` and view budget `b`: the frame's `MaxSPP` is
`max(1, o)` when `o ≥ 0`, and `max(1, b)` when `o < 0` and `b ≥ 0`. -/
theorem MaxSPP_resolution (o : Int) (View : FSceneView) (ho : IsInt32 o)
    (hb : IsInt32 View.PathTracingSamplesPerPixel) :
    (0 ≤ o → (MaxSPP o View : Int) = max 1 o) ∧
    (o < 0 → 0 ≤ View.PathTracingSamplesPerPixel →
      (MaxSPP o View : Int) = max 1 View.PathTracingSamplesPerPixel) := by
  obtain ⟨ho0, ho1⟩ := ho
  obtain ⟨hb0, hb1⟩ := hb
  refine ⟨fun h => ?_, fun h hb => ?_⟩
  · have hgt : o > -1 := by omega
    have := toUInt32_of_nonneg o h ho1
    simp only [MaxSPP, hgt, if_true]
    omega
  · have hgt : ¬ o > -1 := by omega
    have := toUInt32_of_nonneg _ hb hb1
    simp only [MaxSPP, hgt, if_false]
    omega

/-- The three resolutions of the spec: `(8, 16)` gives `8`, `(-1, 16)` gives `16`, `(-1, 0)`
gives `1`. -/
theorem MaxSPP_resolution_witness :
    MaxSPP 8 (mkView ERayTracingRenderMode.Disabled none 16) = 8 ∧
    MaxSPP (-1) (mkView ERayTracingRenderMode.Disabled none 16) = 16 ∧
    MaxSPP (-1) (mkView ERayTracingRenderMode.Disabled none 0) = 1 := by
  have h1 := (MaxSPP_resolution 8 (mkView ERayTracingRenderMode.Disabled none 16)
    (by unfold IsInt32; omega) (by simp [IsInt32, mkView])).1 (by omega)
  have h2 := (MaxSPP_resolution (-1) (mkView ERayTracingRenderMode.Disabled none 16)
    (by unfold IsInt32; omega) (by simp [IsInt32, mkView])).2 (by omega) (by simp [mkView])
  have h3 := (MaxSPP_resolution (-1) (mkView ERayTracingRenderMode.Disabled none 0)
    (by unfold IsInt32; omega) (by simp [IsInt32, mkView])).2 (by omega) (by simp [mkView])
  simp only [mkView] at h1 h2 h3
  refine ⟨?_, ?_, ?_⟩ <;> simp only [mkView] <;> omega

/-! ## Double-buffer parity -/

/-- View-space depth of a proxy: the Z coordinate the sort predicate compares. -/
theorem SortPredicate_iff (ViewMat : FMatrix) (L R : FVdbResearchSceneProxy) :
    SortPredicate ViewMat L R = true ↔
      (ViewMat.TransformPosition R.BoundsSphereCenter).Z <
        (ViewMat.TransformPosition L.BoundsSphereCenter).Z := by
  simp [SortPredicate]

theorem SortPredicate_eq_false_iff (ViewMat : FMatrix) (L R : FVdbResearchSceneProxy) :
    SortPredicate ViewMat L R = false ↔
      (ViewMat.TransformPosition L.BoundsSphereCenter).Z ≤
        (ViewMat.TransformPosition R.BoundsSphereCenter).Z := by
  simp [SortPredicate]

theorem SortPredicate_isStrictWeakOrder (Mem : ProxyMemory) (View : FSceneView) :
    IsStrictWeakOrder (fun Lhs Rhs => SortPredicate View.ViewMatrix (Mem Lhs) (Mem Rhs)) := by
  constructor
  · intro a b h
    rw [SortPredicate_iff] at h
    rw [SortPredicate_eq_false_iff]
    exact le_of_lt h
  · intro a b c h
    simp only [SortPredicate_iff] at h ⊢
    by_cases hb : (View.ViewMatrix.TransformPosition (Mem b).BoundsSphereCenter).Z <
        (View.ViewMatrix.TransformPosition (Mem a).BoundsSphereCenter).Z
    · exact Or.inl hb
    · exact Or.inr (lt_of_lt_of_le h (not_lt.mp hb))

theorem SortedVdbProxies_perm (SortFn : TArraySort) (hs : SortContract SortFn)
    (Mem : ProxyMemory) (View : FSceneView) (VdbProxies : List ProxyPtr) :
    (SortedVdbProxies SortFn Mem View VdbProxies).Perm (VisibleVdbProxies Mem VdbProxies) :=
  (hs _ _ (SortPredicate_isStrictWeakOrder Mem View)).1

theorem SortedVdbProxies_descending (SortFn : TArraySort) (hs : SortContract SortFn)
    (Mem : ProxyMemory) (View : FSceneView) (VdbProxies : List ProxyPtr) :
    (SortedVdbProxies SortFn Mem View VdbProxies).Pairwise (fun a b =>
      (View.ViewMatrix.TransformPosition (Mem b).BoundsSphereCenter).Z ≤
        (View.ViewMatrix.TransformPosition (Mem a).BoundsSphereCenter).Z) := by
  have h := (hs _ (VisibleVdbProxies Mem VdbProxies)
    (SortPredicate_isStrictWeakOrder Mem View)).2
  refine List.Pairwise.imp ?_ h
  intro a b hab
  exact (SortPredicate_eq_false_iff _ _ _).mp hab

theorem mem_VisibleVdbProxies (Mem : ProxyMemory) (VdbProxies : List ProxyPtr) (p : ProxyPtr) :
    p ∈ VisibleVdbProxies Mem VdbProxies ↔ p ∈ VdbProxies ∧ (Mem p).IsVisible = true := by
  simp [VisibleVdbProxies]

/-! ## What one frame records -/

theorem flatMap_ite_singleton {α : Type} (c : α → Bool) (l : List α) :
    l.flatMap (fun a => if c a = true then [a] else []) = l.filter c := by
  induction l with
  | nil => rfl
  | cons a l ih =>
    simp only [List.flatMap_cons, ih, List.filter_cons]
    by_cases h : c a = true <;> simp [h]

theorem flatMap_singleton_id {α : Type} (l : List α) : l.flatMap (fun a => [a]) = l := by
  induction l with
  | nil => rfl
  | cons a l ih => simp [List.flatMap_cons, ih]

theorem RenderProxy_Composited (Mem : ProxyMemory) (UsePT : Bool) (NumAcc MaxSamples : Nat)
    (Even : Bool) (Proxy : ProxyPtr) :
    (RenderProxy Mem UsePT NumAcc MaxSamples Even Proxy).filterMap RenderCommand.Composited =
      [Proxy] := by
  unfold RenderProxy
  by_cases hr : ShouldRender Mem NumAcc MaxSamples Proxy = true <;>
    cases UsePT <;>
    simp [hr, RenderCommand.Composited, FRDGTextureRef.Owner]

theorem RenderProxy_PassOf (Mem : ProxyMemory) (UsePT : Bool) (NumAcc MaxSamples : Nat)
    (Even : Bool) (Proxy : ProxyPtr) :
    (RenderProxy Mem UsePT NumAcc MaxSamples Even Proxy).filterMap RenderCommand.PassOf =
      if ShouldRender Mem NumAcc MaxSamples Proxy = true then [Proxy] else [] := by
  unfold RenderProxy
  by_cases hr : ShouldRender Mem NumAcc MaxSamples Proxy = true <;>
    cases UsePT <;>
    simp [hr, RenderCommand.PassOf]

theorem RenderProxy_ParamsOf (Mem : ProxyMemory) (UsePT : Bool) (NumAcc MaxSamples : Nat)
    (Even : Bool) (Proxy : ProxyPtr) :
    (RenderProxy Mem UsePT NumAcc MaxSamples Even Proxy).filterMap RenderCommand.ParamsOf =
      if ShouldRender Mem NumAcc MaxSamples Proxy = true then [Proxy] else [] := by
  unfold RenderProxy
  by_cases hr : ShouldRender Mem NumAcc MaxSamples Proxy = true <;>
    cases UsePT <;>
    simp [hr, RenderCommand.ParamsOf]

theorem Render_RenderThread_Composited (flag : Bool) (SortFn : TArraySort) (Mem : ProxyMemory)
    (cvar : Int) (VdbProxies : List ProxyPtr) (View : FSceneView) (hne : VdbProxies ≠ []) :
    (Render_RenderThread flag SortFn Mem cvar VdbProxies View).filterMap
      RenderCommand.Composited = SortedVdbProxies SortFn Mem View VdbProxies := by
  unfold Render_RenderThread
  simp only [List.isEmpty_iff, hne, if_false]
  rw [List.filterMap_flatMap]
  simp only [RenderProxy_Composited]
  exact flatMap_singleton_id _

theorem Render_RenderThread_PassOf (flag : Bool) (SortFn : TArraySort) (Mem : ProxyMemory)
    (cvar : Int) (VdbProxies : List ProxyPtr) (View : FSceneView) (hne : VdbProxies ≠ []) :
    (Render_RenderThread flag SortFn Mem cvar VdbProxies View).filterMap RenderCommand.PassOf =
      (SortedVdbProxies SortFn Mem View VdbProxies).filter
        (ShouldRender Mem (NumAccumulations flag View) (MaxSPP cvar View)) := by
  unfold Render_RenderThread
  simp only [List.isEmpty_iff, hne, if_false]
  rw [List.filterMap_flatMap]
  simp only [RenderProxy_PassOf]
  exact flatMap_ite_singleton _ _

theorem Render_RenderThread_ParamsOf (flag : Bool) (SortFn : TArraySort) (Mem : ProxyMemory)
    (cvar : Int) (VdbProxies : List ProxyPtr) (View : FSceneView) (hne : VdbProxies ≠ []) :
    (Render_RenderThread flag SortFn Mem cvar VdbProxies View).filterMap RenderCommand.ParamsOf =
      (SortedVdbProxies SortFn Mem View VdbProxies).filter
        (ShouldRender Mem (NumAccumulations flag View) (MaxSPP cvar View)) := by
  unfold Render_RenderThread
  simp only [List.isEmpty_iff, hne, if_false]
  rw [List.filterMap_flatMap]
  simp only [RenderProxy_ParamsOf]
  exact flatMap_ite_singleton _ _

theorem Render_RenderThread_nil (flag : Bool) (SortFn : TArraySort) (Mem : ProxyMemory)
    (cvar : Int) (View : FSceneView) :
    Render_RenderThread flag SortFn Mem cvar [] View = [] := by
  simp [Render_RenderThread]

theorem insertionSort_contract (Pred : ProxyPtr → ProxyPtr → Bool) (hp : IsStrictWeakOrder Pred)
    (l : List ProxyPtr) :
    (List.insertionSort (fun a b => Pred b a = false) l).Perm l ∧
    (List.insertionSort (fun a b => Pred b a = false) l).Pairwise
      (fun a b => Pred b a = false) := by
  haveI : IsTotal ProxyPtr (fun a b => Pred b a = false) := ⟨by
    intro a b
    by_cases h : Pred b a = true
    · exact Or.inr (hp.1 b a h)
    · exact Or.inl (by simpa using h)⟩
  haveI : IsTrans ProxyPtr (fun a b => Pred b a = false) := ⟨by
    intro a b c hab hbc
    by_contra h
    have hca : Pred c a = true := by simpa using h
    rcases hp.2 c b a hca with h1 | h1
    · simp [h1] at hbc
    · simp [h1] at hab⟩
  exact ⟨List.perm_insertionSort _ l, List.sorted_insertionSort _ l⟩

theorem stableSort_contract : SortContract stableSort := by
  intro Pred l hp
  exact insertionSort_contract Pred hp l

theorem Render_RenderThread_Composited_perm (flag : Bool) (SortFn : TArraySort)
    (hs : SortContract SortFn) (Mem : ProxyMemory) (cvar : Int) (VdbProxies : List ProxyPtr)
    (View : FSceneView) :
    ((Render_RenderThread flag SortFn Mem cvar VdbProxies View).filterMap
      RenderCommand.Composited).Perm (VisibleVdbProxies Mem VdbProxies) := by
  by_cases hne : VdbProxies = []
  · subst hne
    simp [Render_RenderThread_nil, VisibleVdbProxies]
  · rw [Render_RenderThread_Composited flag SortFn Mem cvar VdbProxies View hne]
    exact SortedVdbProxies_perm SortFn hs Mem View VdbProxies

theorem Render_RenderThread_PassOf_perm (flag : Bool) (SortFn : TArraySort)
    (hs : SortContract SortFn) (Mem : ProxyMemory) (cvar : Int) (VdbProxies : List ProxyPtr)
    (View : FSceneView) :
    ((Render_RenderThread flag SortFn Mem cvar VdbProxies View).filterMap
      RenderCommand.PassOf).Perm ((VisibleVdbProxies Mem VdbProxies).filter
        (ShouldRender Mem (NumAccumulations flag View) (MaxSPP cvar View))) := by
  by_cases hne : VdbProxies = []
  · subst hne
    simp [Render_RenderThread_nil, VisibleVdbProxies]
  · rw [Render_RenderThread_PassOf flag SortFn Mem cvar VdbProxies View hne]
    exact (SortedVdbProxies_perm SortFn hs Mem View VdbProxies).filter _

theorem Render_RenderThread_ParamsOf_perm (flag : Bool) (SortFn : TArraySort)
    (hs : SortContract SortFn) (Mem : ProxyMemory) (cvar : Int) (VdbProxies : List ProxyPtr)
    (View : FSceneView) :
    ((Render_RenderThread flag SortFn Mem cvar VdbProxies View).filterMap
      RenderCommand.ParamsOf).Perm ((VisibleVdbProxies Mem VdbProxies).filter
        (ShouldRender Mem (NumAccumulations flag View) (MaxSPP cvar View))) := by
  by_cases hne : VdbProxies = []
  · subst hne
    simp [Render_RenderThread_nil, VisibleVdbProxies]
  · rw [Render_RenderThread_ParamsOf flag SortFn Mem cvar VdbProxies View hne]
    exact (SortedVdbProxies_perm SortFn hs Mem View VdbProxies).filter _

theorem mem_filter_ShouldRender (Mem : ProxyMemory) (n m : Nat) (VdbProxies : List ProxyPtr)
    (p : ProxyPtr) :
    p ∈ (VisibleVdbProxies Mem VdbProxies).filter (ShouldRender Mem n m) ↔
      p ∈ VdbProxies ∧ (Mem p).IsVisible = true ∧ n < m ∧ (Mem p).VdbDensity ≠ none := by
  simp only [List.mem_filter, mem_VisibleVdbProxies, ShouldRender, Bool.and_eq_true,
    decide_eq_true_eq, Option.isSome_iff_ne_none]
  tauto

/-- C4. For every frame (any conforming host sort) a raster pass is recorded for a proxy, and a
parameter block built for it, exactly when the proxy is a visible registered proxy, the
accumulation count is below `MaxSPP` and its density handle is non-null; the loop body records
the pass exactly under the condition of line 262. Hence the number of passes of the frame is the
number of visible proxies with non-null density when the count is below `MaxSPP`, and `0`
otherwise. -/
theorem render_pass_condition (flag : Bool) (SortFn : TArraySort) (hs : SortContract SortFn)
    (Mem : ProxyMemory) (cvar : Int) (VdbProxies : List ProxyPtr) (View : FSceneView) :
    (∀ p, p ∈ (Render_RenderThread flag SortFn Mem cvar VdbProxies View).filterMap
        RenderCommand.PassOf ↔
      p ∈ VdbProxies ∧ (Mem p).IsVisible = true ∧
        NumAccumulations flag View < MaxSPP cvar View ∧ (Mem p).VdbDensity ≠ none) ∧
    (∀ p, p ∈ (Render_RenderThread flag SortFn Mem cvar VdbProxies View).filterMap
        RenderCommand.ParamsOf ↔
      p ∈ VdbProxies ∧ (Mem p).IsVisible = true ∧
        NumAccumulations flag View < MaxSPP cvar View ∧ (Mem p).VdbDensity ≠ none) ∧
    (∀ p UsePT Even, p ∈ (RenderProxy Mem UsePT (NumAccumulations flag View) (MaxSPP cvar View)
        Even p).filterMap RenderCommand.PassOf ↔
      NumAccumulations flag View < MaxSPP cvar View ∧ (Mem p).VdbDensity ≠ none) ∧
    (NumAccumulations flag View < MaxSPP cvar View →
      ((Render_RenderThread flag SortFn Mem cvar VdbProxies View).filterMap
        RenderCommand.PassOf).length =
      ((VisibleVdbProxies Mem VdbProxies).filter
        (fun p => (Mem p).VdbDensity.isSome)).length) ∧
    (MaxSPP cvar View ≤ NumAccumulations flag View →
      ((Render_RenderThread flag SortFn Mem cvar VdbProxies View).filterMap
        RenderCommand.PassOf).length = 0) := by
  have hP := Render_RenderThread_PassOf_perm flag SortFn hs Mem cvar VdbProxies View
  have hU := Render_RenderThread_ParamsOf_perm flag SortFn hs Mem cvar VdbProxies View
  refine ⟨fun p => ?_, fun p => ?_, fun p UsePT Even => ?_, fun hlt => ?_, fun hge => ?_⟩
  · rw [hP.mem_iff]
    exact mem_filter_ShouldRender Mem _ _ VdbProxies p
  · rw [hU.mem_iff]
    exact mem_filter_ShouldRender Mem _ _ VdbProxies p
  · rw [RenderProxy_PassOf]
    by_cases hr : ShouldRender Mem (NumAccumulations flag View) (MaxSPP cvar View) p = true
    · have hr' := hr
      simp only [ShouldRender, Bool.and_eq_true, decide_eq_true_eq,
        Option.isSome_iff_ne_none] at hr'
      simp [hr, hr']
    · have hr' := hr
      simp only [ShouldRender, Bool.and_eq_true, decide_eq_true_eq,
        Option.isSome_iff_ne_none] at hr'
      rw [if_neg hr]
      simp only [List.not_mem_nil, false_iff]
      exact hr'
  · rw [hP.length_eq]
    congr 1
    apply List.filter_congr
    intro p _
    simp [ShouldRender, hlt]
  · rw [hP.length_eq]
    have hnot : ¬ NumAccumulations flag View < MaxSPP cvar View := Nat.not_lt.mpr hge
    simp [ShouldRender, hnot]

/-- C5. For every frame with a non-empty registry the proxies composited, in order, are exactly
the list produced by the filter-then-sort step; with any conforming host sort that list is a
rearrangement of the visible registered proxies, so each proxy is composited as many times as it
is listed among them (once, for a duplicate-free registry) and an invisible proxy never is,
whatever the density handles and whether or not a pass was recorded. With an empty registry the
frame records nothing. -/
theorem composite_sequence (flag : Bool) (SortFn : TArraySort) (hs : SortContract SortFn)
    (Mem : ProxyMemory) (cvar : Int) (VdbProxies : List ProxyPtr) (View : FSceneView) :
    (VdbProxies ≠ [] →
      (Render_RenderThread flag SortFn Mem cvar VdbProxies View).filterMap
        RenderCommand.Composited = SortedVdbProxies SortFn Mem View VdbProxies) ∧
    ((Render_RenderThread flag SortFn Mem cvar VdbProxies View).filterMap
        RenderCommand.Composited).Perm (VisibleVdbProxies Mem VdbProxies) ∧
    (∀ p, ((Render_RenderThread flag SortFn Mem cvar VdbProxies View).filterMap
        RenderCommand.Composited).count p = (VisibleVdbProxies Mem VdbProxies).count p) ∧
    (VdbProxies.Nodup → ∀ p ∈ VdbProxies, (Mem p).IsVisible = true →
      ((Render_RenderThread flag SortFn Mem cvar VdbProxies View).filterMap
        RenderCommand.Composited).count p = 1) ∧
    (∀ p, (Mem p).IsVisible = false →
      p ∉ (Render_RenderThread flag SortFn Mem cvar VdbProxies View).filterMap
        RenderCommand.Composited) ∧
    (VdbProxies = [] → Render_RenderThread flag SortFn Mem cvar VdbProxies View = []) := by
  have hC := Render_RenderThread_Composited_perm flag SortFn hs Mem cvar VdbProxies View
  refine ⟨Render_RenderThread_Composited flag SortFn Mem cvar VdbProxies View, hC,
    fun p => hC.count_eq p, fun hnd p hp hv => ?_, fun p hv hmem => ?_, fun h => ?_⟩
  · rw [hC.count_eq p]
    have hnd' : (VisibleVdbProxies Mem VdbProxies).Nodup := hnd.filter _
    exact List.count_eq_one_of_mem hnd' ((mem_VisibleVdbProxies Mem VdbProxies p).mpr ⟨hp, hv⟩)
  · have := (mem_VisibleVdbProxies Mem VdbProxies p).mp (hC.mem_iff.mp hmem)
    simp [hv] at this
  · subst h
    exact Render_RenderThread_nil flag SortFn Mem cvar View

/-! ## Back-to-front order -/

theorem eq_of_perm_of_descending (depth : ProxyPtr → ℚ) (l e : List ProxyPtr) (hp : l.Perm e)
    (hl : l.Pairwise (fun a b => depth b ≤ depth a))
    (he : e.Pairwise (fun a b => depth b < depth a)) : l = e := by
  have hne : l.Pairwise (fun a b => depth a ≠ depth b) := by
    have hne' : e.Pairwise (fun a b => depth a ≠ depth b) :=
      he.imp (fun h => (ne_of_lt h).symm)
    exact (hp.pairwise_iff (fun {a b} h => h.symm)).mpr hne'
  have hl' : l.Pairwise (fun a b => depth b < depth a) :=
    (hl.and hne).imp (fun h => lt_of_le_of_ne h.1 h.2.symm)
  haveI : IsAntisymm ProxyPtr (fun a b => depth b < depth a) :=
    ⟨fun a b h1 h2 => absurd h1 (not_lt.mpr (le_of_lt h2))⟩
  exact List.eq_of_perm_of_sorted hp hl' he

theorem sceneDepth_1 : ViewDepth sceneMem sceneView 1 = 5 := by
  norm_num [ViewDepth, sceneMem, sceneView, mkView, mkProxy, lookDownNegZ,
    FMatrix.TransformPosition]

theorem sceneDepth_2 : ViewDepth sceneMem sceneView 2 = 10 := by
  norm_num [ViewDepth, sceneMem, sceneView, mkView, mkProxy, lookDownNegZ,
    FMatrix.TransformPosition]

theorem sceneDepth_3 : ViewDepth sceneMem sceneView 3 = 2 := by
  norm_num [ViewDepth, sceneMem, sceneView, mkView, mkProxy, lookDownNegZ,
    FMatrix.TransformPosition]

theorem sceneVisible : VisibleVdbProxies sceneMem sceneRegistry = [1, 2, 3] := by
  simp [VisibleVdbProxies, sceneRegistry, sceneMem, mkProxy]

theorem sceneSorted (SortFn : TArraySort) (hs : SortContract SortFn) :
    SortedVdbProxies SortFn sceneMem sceneView sceneRegistry = [2, 1, 3] := by
  apply eq_of_perm_of_descending (ViewDepth sceneMem sceneView)
  · refine (SortedVdbProxies_perm SortFn hs sceneMem sceneView sceneRegistry).trans ?_
    rw [sceneVisible]
    exact List.Perm.swap 2 1 [3]
  · exact SortedVdbProxies_descending SortFn hs sceneMem sceneView sceneRegistry
  · simp only [List.pairwise_cons, List.mem_cons, List.mem_singleton, List.not_mem_nil,
      forall_eq_or_imp, forall_eq, sceneDepth_1, sceneDepth_2, sceneDepth_3]
    norm_num

/-- Example scene, count `4`: with `MaxSPP = 16` two passes are recorded (proxies `1` and `2`;
proxy `3` has no density), with `MaxSPP = 4` none. -/
theorem render_pass_condition_witness :
    ((Render_RenderThread true stableSort sceneMem (-1) sceneRegistry sceneView).filterMap
      RenderCommand.PassOf).length = 2 ∧
    ((Render_RenderThread true stableSort sceneMem 4 sceneRegistry sceneView).filterMap
      RenderCommand.PassOf).length = 0 := by
  have hn : NumAccumulations true sceneView = 4 := by decide
  have hm : MaxSPP (-1) sceneView = 16 := by decide
  have hm4 : MaxSPP 4 sceneView = 4 := by decide
  have h1 := (render_pass_condition true stableSort stableSort_contract sceneMem (-1)
    sceneRegistry sceneView).2.2.2.1 (by rw [hn, hm]; decide)
  have h2 := (render_pass_condition true stableSort stableSort_contract sceneMem 4
    sceneRegistry sceneView).2.2.2.2 (by rw [hn, hm4])
  refine ⟨?_, h2⟩
  rw [h1, sceneVisible]
  simp [sceneMem, mkProxy]

/-- Example scene: the composites are those of proxies `2`, `1`, `3`, in this order, proxy `3`
included although it has no density; nothing is recorded for the empty registry. -/
theorem composite_sequence_witness :
    (Render_RenderThread true stableSort sceneMem (-1) sceneRegistry sceneView).filterMap
      RenderCommand.Composited = [2, 1, 3] ∧
    Render_RenderThread true stableSort sceneMem (-1) [] sceneView = [] := by
  have h := composite_sequence true stableSort stableSort_contract sceneMem (-1) sceneRegistry
    sceneView
  have h0 := composite_sequence true stableSort stableSort_contract sceneMem (-1) [] sceneView
  refine ⟨?_, h0.2.2.2.2.2 rfl⟩
  rw [h.1 (by simp [sceneRegistry])]
  exact sceneSorted stableSort stableSort_contract

theorem identityDepth (p : ProxyPtr) :
    ViewDepth sceneMem identityView p = (sceneMem p).BoundsSphereCenter.Z := by
  simp [ViewDepth, identityView, FMatrix.TransformPosition]

/-- With the identity view matrix the same three centres come out as `-2`, `-5`, `-10`: the
order is by view-space Z, whatever the view matrix makes of the world positions. -/
theorem identitySorted (SortFn : TArraySort) (hs : SortContract SortFn) :
    SortedVdbProxies SortFn sceneMem identityView sceneRegistry = [3, 1, 2] := by
  apply eq_of_perm_of_descending (ViewDepth sceneMem identityView)
  · refine (SortedVdbProxies_perm SortFn hs sceneMem identityView sceneRegistry).trans ?_
    rw [sceneVisible]
    exact ((List.Perm.swap 1 3 [2]).trans (List.Perm.cons 1 (List.Perm.swap 2 3 []))).symm
  · exact SortedVdbProxies_descending SortFn hs sceneMem identityView sceneRegistry
  · simp only [List.pairwise_cons, List.mem_cons, List.mem_singleton, List.not_mem_nil,
      forall_eq_or_imp, forall_eq, identityDepth]
    norm_num [sceneMem, mkProxy]

/-! ## Registry -/

theorem Find_eq_INDEX_NONE_iff (A : List ProxyPtr) (p : ProxyPtr) :
    Find A p = INDEX_NONE ↔ p ∉ A := by
  unfold Find INDEX_NONE
  by_cases h : p ∈ A
  · simp only [h, if_true, not_true_eq_false, iff_false]
    omega
  · simp [h]

theorem AddVdbProxy_absent (A : List ProxyPtr) (p : ProxyPtr) (h : p ∉ A) :
    AddVdbProxy A p = some (A ++ [p]) := by
  simp [AddVdbProxy, check, (Find_eq_INDEX_NONE_iff A p).mpr h]

theorem AddVdbProxy_present (A : List ProxyPtr) (p : ProxyPtr) (h : p ∈ A) :
    AddVdbProxy A p = none := by
  have : ¬ Find A p = INDEX_NONE := fun hf => (Find_eq_INDEX_NONE_iff A p).mp hf h
  simp [AddVdbProxy, check, this]

theorem RemoveVdbProxy_absent (A : List ProxyPtr) (p : ProxyPtr) (h : p ∉ A) :
    RemoveVdbProxy A p = A := by
  simp [RemoveVdbProxy, (Find_eq_INDEX_NONE_iff A p).mpr h]

theorem RemoveVdbProxy_eq_filter (A : List ProxyPtr) (p : ProxyPtr) :
    RemoveVdbProxy A p = A.filter (fun x => x != p) := by
  by_cases h : p ∈ A
  · have : ¬ Find A p = INDEX_NONE := fun hf => (Find_eq_INDEX_NONE_iff A p).mp hf h
    simp [RemoveVdbProxy, Remove, this]
  · rw [RemoveVdbProxy_absent A p h]
    symm
    rw [List.filter_eq_self]
    intro a ha
    have : a ≠ p := fun hap => h (hap ▸ ha)
    simpa using this

theorem mem_RemoveVdbProxy (A : List ProxyPtr) (p q : ProxyPtr) :
    q ∈ RemoveVdbProxy A p ↔ q ∈ A ∧ q ≠ p := by
  rw [RemoveVdbProxy_eq_filter]
  simp

theorem RunCommands_append (A : List ProxyPtr) (cs : List RegistryCommand) (c : RegistryCommand) :
    RunCommands A (cs ++ [c]) = (RunCommands A cs).bind (fun R => Execute R c) := by
  induction cs generalizing A with
  | nil =>
    simp only [List.nil_append, RunCommands, Option.some_bind]
    cases Execute A c <;> rfl
  | cons d ds ih =>
    simp only [List.cons_append, RunCommands]
    cases Execute A d with
    | none => rfl
    | some R => simpa using ih R

theorem LastIsAdd_append (cs : List RegistryCommand) (c : RegistryCommand) (q : ProxyPtr) :
    LastIsAdd (cs ++ [c]) q =
      if c.Proxy = q then (match c with | .Add _ => true | .Remove _ => false)
      else LastIsAdd cs q := by
  unfold LastIsAdd LastCommand
  rw [List.reverse_append, List.reverse_singleton, List.singleton_append, List.find?_cons]
  by_cases h : c.Proxy = q
  · have hb : (c.Proxy == q) = true := by simpa using h
    rw [hb, if_pos h]
    cases c <;> rfl
  · have hb : (c.Proxy == q) = false := by simpa using h
    rw [hb, if_neg h]

theorem RunCommands_invariant (cs : List RegistryCommand) :
    ∀ Final, RunCommands [] cs = some Final →
      Final.Nodup ∧ ∀ q, q ∈ Final ↔ LastIsAdd cs q = true := by
  induction cs using List.reverseRecOn with
  | nil =>
    intro Final h
    simp only [RunCommands, Option.some.injEq] at h
    subst h
    simp [LastIsAdd, LastCommand]
  | append_singleton cs c ih =>
    intro Final h
    rw [RunCommands_append] at h
    cases hrun : RunCommands [] cs with
    | none => simp [hrun] at h
    | some R =>
      rw [hrun, Option.some_bind] at h
      obtain ⟨hnd, hmem⟩ := ih R hrun
      cases c with
      | Add p =>
        by_cases hp : p ∈ R
        · simp [Execute, AddVdbProxy_present R p hp] at h
        · simp only [Execute, AddVdbProxy_absent R p hp, Option.some.injEq] at h
          subst h
          refine ⟨?_, fun q => ?_⟩
          · exact List.Nodup.append hnd (List.nodup_singleton p)
              (by
                intro a ha hap
                have := List.mem_singleton.mp hap
                exact hp (this ▸ ha))
          · rw [LastIsAdd_append]
            by_cases hq : p = q
            · subst hq
              simp [RegistryCommand.Proxy]
            · have hq' : q ≠ p := fun e => hq e.symm
              simp [RegistryCommand.Proxy, hq, hq', hmem q]
      | Remove p =>
        simp only [Execute, Option.some.injEq] at h
        subst h
        refine ⟨?_, fun q => ?_⟩
        · rw [RemoveVdbProxy_eq_filter]
          exact hnd.filter _
        · rw [LastIsAdd_append, mem_RemoveVdbProxy]
          by_cases hq : p = q
          · subst hq
            simp [RegistryCommand.Proxy]
          · have hq' : q ≠ p := fun e => hq e.symm
            simp [RegistryCommand.Proxy, hq, hq', hmem q]

/-- C7. On every registry, `Add(p)` appends `p` at the end when `p` is absent and is rejected
when present; `Remove(p)` deletes `p` (keeping the others in order) when present and changes
nothing when absent. For every command sequence run in submission order from the empty registry:
an `Add(p)` submitted next is accepted exactly when the latest command about `p` is not an `Add`,
and if no `Add` was rejected the registry has no duplicate and holds exactly the proxies whose
latest command is an `Add`. -/
theorem registry_semantics (VdbProxies : List ProxyPtr) (Proxy : ProxyPtr)
    (Commands : List RegistryCommand) :
    (Proxy ∉ VdbProxies → AddVdbProxy VdbProxies Proxy = some (VdbProxies ++ [Proxy])) ∧
    (Proxy ∈ VdbProxies → AddVdbProxy VdbProxies Proxy = none) ∧
    (Proxy ∈ VdbProxies →
      Proxy ∉ RemoveVdbProxy VdbProxies Proxy ∧
      (∀ q, q ≠ Proxy → (q ∈ RemoveVdbProxy VdbProxies Proxy ↔ q ∈ VdbProxies)) ∧
      List.Sublist (RemoveVdbProxy VdbProxies Proxy) VdbProxies ∧
      (VdbProxies.Nodup → RemoveVdbProxy VdbProxies Proxy = VdbProxies.erase Proxy)) ∧
    (Proxy ∉ VdbProxies → RemoveVdbProxy VdbProxies Proxy = VdbProxies) ∧
    (∀ Final, RunCommands [] Commands = some Final →
      Final.Nodup ∧ (∀ q, q ∈ Final ↔ LastIsAdd Commands q = true) ∧
      (RunCommands [] (Commands ++ [RegistryCommand.Add Proxy]) ≠ none ↔
        LastIsAdd Commands Proxy = false) ∧
      RunCommands [] (Commands ++ [RegistryCommand.Remove Proxy]) =
        some (RemoveVdbProxy Final Proxy)) := by
  refine ⟨AddVdbProxy_absent _ _, AddVdbProxy_present _ _, fun _ => ⟨?_, ?_, ?_, ?_⟩,
    RemoveVdbProxy_absent _ _, fun Final h => ?_⟩
  · simp [mem_RemoveVdbProxy]
  · intro q hq
    simp [mem_RemoveVdbProxy, hq]
  · rw [RemoveVdbProxy_eq_filter]
    exact List.filter_sublist _
  · intro hnd
    rw [RemoveVdbProxy_eq_filter, hnd.erase_eq_filter]
  · obtain ⟨hnd, hmem⟩ := RunCommands_invariant Commands Final h
    refine ⟨hnd, hmem, ?_, ?_⟩
    · rw [RunCommands_append, h, Option.some_bind]
      by_cases hp : Proxy ∈ Final
      · have hl : LastIsAdd Commands Proxy = true := (hmem Proxy).mp hp
        simp [Execute, AddVdbProxy_present Final Proxy hp, hl]
      · have hl : LastIsAdd Commands Proxy = false := by
          have := (hmem Proxy).not.mp hp
          simpa using this
        simp [Execute, AddVdbProxy_absent Final Proxy hp, hl]
    · rw [RunCommands_append, h, Option.some_bind]
      rfl

/-- The sequence `Add 1, Add 2, Remove 1, Remove 7, Add 1` leaves the registry `[2, 1]`; adding `2`
again is rejected. -/
theorem registry_semantics_witness :
    RunCommands [] [RegistryCommand.Add 1, RegistryCommand.Add 2, RegistryCommand.Remove 1,
      RegistryCommand.Remove 7, RegistryCommand.Add 1] = some [2, 1] ∧
    [2, 1].Nodup ∧
    RunCommands [] [RegistryCommand.Add 1, RegistryCommand.Add 2, RegistryCommand.Remove 1,
      RegistryCommand.Remove 7, RegistryCommand.Add 1, RegistryCommand.Add 2] = none ∧
    AddVdbProxy [2, 1] 3 = some [2, 1, 3] ∧ AddVdbProxy [2, 1] 1 = none ∧
    RemoveVdbProxy [2, 1] 2 = [1] ∧ RemoveVdbProxy [2, 1] 7 = [2, 1] := by
  have h := registry_semantics [2, 1] 3 [RegistryCommand.Add 1, RegistryCommand.Add 2,
    RegistryCommand.Remove 1, RegistryCommand.Remove 7, RegistryCommand.Add 1]
  have hrun : RunCommands [] [RegistryCommand.Add 1, RegistryCommand.Add 2,
      RegistryCommand.Remove 1, RegistryCommand.Remove 7, RegistryCommand.Add 1] =
      some [2, 1] := by decide
  refine ⟨hrun, (h.2.2.2.2 [2, 1] hrun).1, by decide, h.1 (by decide), ?_, ?_, ?_⟩
  · exact (registry_semantics [2, 1] 1 []).2.1 (by decide)
  · decide
  · exact (registry_semantics [2, 1] 7 []).2.2.2.1 (by decide)

/-! ## Overlay hook -/

theorem InitBuffers_fields (S : FVdbResearchRendering) :
    (InitBuffers S).This = S.This ∧
    (InitBuffers S).RenderDelegateHandle = S.RenderDelegateHandle ∧
    (InitBuffers S).RendererModule = S.RendererModule ∧
    (InitBuffers S).VertexBufferRHI.isSome = true ∧
    (InitBuffers S).IndexBufferRHI.isSome = true := by
  obtain ⟨this, vb, ib, h, m⟩ := S
  cases vb <;> cases ib <;> simp [InitBuffers]

theorem InitBuffers_of_valid (S : FVdbResearchRendering) (hv : S.VertexBufferRHI.isSome = true)
    (hi : S.IndexBufferRHI.isSome = true) : InitBuffers S = S := by
  obtain ⟨this, vb, ib, h, m⟩ := S
  cases vb <;> cases ib <;> simp_all [InitBuffers]

theorem OwnDelegates_InitBuffers (S : FVdbResearchRendering) :
    OwnDelegates (InitBuffers S) = OwnDelegates S := by
  obtain ⟨h1, h2, h3, -, -⟩ := InitBuffers_fields S
  unfold OwnDelegates
  rw [h3, h1]

theorem InitDelegate_of_valid (S : FVdbResearchRendering)
    (h : S.RenderDelegateHandle.IsValid = true) : InitDelegate S = S := by
  simp [InitDelegate, h]

theorem ReleaseDelegate_of_invalid (S : FVdbResearchRendering)
    (h : S.RenderDelegateHandle.IsValid = false) : ReleaseDelegate S = S := by
  simp [ReleaseDelegate, h]

theorem ReleaseDelegate_handle (S : FVdbResearchRendering) :
    (ReleaseDelegate S).RenderDelegateHandle.IsValid = false := by
  by_cases h : S.RenderDelegateHandle.IsValid = true
  · obtain ⟨this, vb, ib, hd, m⟩ := S
    cases m <;> simp_all [ReleaseDelegate, FDelegateHandle.Reset, FDelegateHandle.IsValid]
  · have h' : S.RenderDelegateHandle.IsValid = false := by simpa using h
    rw [ReleaseDelegate_of_invalid S h']
    exact h'

theorem HookInvariant_InitDelegate (S : FVdbResearchRendering) (hS : HookInvariant S) :
    HookInvariant (InitDelegate S) ∧ (InitDelegate S).RenderDelegateHandle.IsValid = true := by
  obtain ⟨this, vb, ib, ⟨id⟩, m⟩ := S
  obtain ⟨hm, hown⟩ := hS
  cases m with
  | none => simp at hm
  | some R =>
    by_cases h : id = 0
    · subst h
      simp only [OwnDelegates, FDelegateHandle.IsValid, bne_self_eq_false, Bool.false_eq_true,
        if_false] at hown
      simp [HookInvariant, InitDelegate, OwnDelegates, FDelegateHandle.IsValid,
        IRendererModule.RegisterOverlayRenderDelegate, List.filter_append, hown]
    · simp only [OwnDelegates, FDelegateHandle.IsValid] at hown
      simp [HookInvariant, InitDelegate, OwnDelegates, FDelegateHandle.IsValid, h, hown]

theorem HookInvariant_ReleaseDelegate (S : FVdbResearchRendering) (hS : HookInvariant S) :
    HookInvariant (ReleaseDelegate S) ∧ OwnDelegates (ReleaseDelegate S) = [] := by
  obtain ⟨this, vb, ib, ⟨id⟩, m⟩ := S
  obtain ⟨hm, hown⟩ := hS
  cases m with
  | none => simp at hm
  | some R =>
    by_cases h : id = 0
    · subst h
      simp only [OwnDelegates, FDelegateHandle.IsValid, bne_self_eq_false, Bool.false_eq_true,
        if_false] at hown
      simp [HookInvariant, ReleaseDelegate, OwnDelegates, FDelegateHandle.IsValid, hown]
    · simp only [OwnDelegates, FDelegateHandle.IsValid] at hown
      have hown' : List.filter (fun e => e.2 == this) R.OverlayRenderDelegates = [(id, this)] := by
        simpa [h] using hown
      have hcomm : List.filter (fun e => e.2 == this)
          (List.filter (fun e => e.1 != id) R.OverlayRenderDelegates) = [] := by
        rw [List.filter_filter]
        have : List.filter (fun a => a.2 == this && a.1 != id) R.OverlayRenderDelegates =
            List.filter (fun e => e.1 != id)
              (List.filter (fun e => e.2 == this) R.OverlayRenderDelegates) := by
          rw [List.filter_filter]
          congr 1
          funext a
          exact Bool.and_comm _ _
        rw [this, hown']
        simp
      simp [HookInvariant, ReleaseDelegate, OwnDelegates, FDelegateHandle.IsValid,
        FDelegateHandle.Reset, IRendererModule.RemoveOverlayRenderDelegate, h, hcomm]

theorem HookInvariant_InitBuffers (S : FVdbResearchRendering) (hS : HookInvariant S) :
    HookInvariant (InitBuffers S) := by
  obtain ⟨h1, h2, h3, -, -⟩ := InitBuffers_fields S
  unfold HookInvariant
  rw [OwnDelegates_InitBuffers, h1, h2, h3]
  exact hS

theorem HookInvariant_run (c : LifecycleCall) (S : FVdbResearchRendering)
    (hS : HookInvariant S) : HookInvariant (c.run S) := by
  cases c with
  | Init => exact (HookInvariant_InitDelegate _ (HookInvariant_InitBuffers S hS)).1
  | Release => exact (HookInvariant_ReleaseDelegate S hS).1

theorem HookInvariant_RunLifecycle (Calls : List LifecycleCall) (S : FVdbResearchRendering)
    (hS : HookInvariant S) : HookInvariant (RunLifecycle S Calls) := by
  induction Calls generalizing S with
  | nil => exact hS
  | cons c cs ih => exact ih (c.run S) (HookInvariant_run c S hS)

theorem HookInvariant_count (S : FVdbResearchRendering) (hS : HookInvariant S) :
    RegisteredCount S ≤ 1 ∧
    (RegisteredCount S = 1 ↔ S.RenderDelegateHandle.IsValid = true) := by
  unfold RegisteredCount
  rw [hS.2]
  cases S.RenderDelegateHandle.IsValid <;> simp

theorem HookInvariant_of_uninitialized (S : FVdbResearchRendering)
    (hm : S.RendererModule.isSome = true) (hh : S.RenderDelegateHandle.IsValid = false)
    (h0 : RegisteredCount S = 0) : HookInvariant S := by
  refine ⟨hm, ?_⟩
  rw [hh]
  simpa [RegisteredCount] using h0

theorem InitDelegate_buffers (S : FVdbResearchRendering) :
    (InitDelegate S).VertexBufferRHI = S.VertexBufferRHI ∧
    (InitDelegate S).IndexBufferRHI = S.IndexBufferRHI := by
  obtain ⟨this, vb, ib, ⟨id⟩, m⟩ := S
  by_cases h : id = 0 <;> cases m <;> simp [InitDelegate, FDelegateHandle.IsValid, h]

theorem InitRendering_of_active (S : FVdbResearchRendering)
    (h : S.RenderDelegateHandle.IsValid = true) :
    (InitRendering S).RendererModule = S.RendererModule ∧
    (InitRendering S).RenderDelegateHandle = S.RenderDelegateHandle := by
  obtain ⟨-, h2, h3, -, -⟩ := InitBuffers_fields S
  unfold InitRendering
  rw [InitDelegate_of_valid _ (by rw [h2]; exact h)]
  exact ⟨h3, h2⟩

theorem InitRendering_idempotent (S : FVdbResearchRendering) (hS : HookInvariant S) :
    InitRendering (InitRendering S) = InitRendering S := by
  have hT := HookInvariant_InitDelegate _ (HookInvariant_InitBuffers S hS)
  obtain ⟨-, -, -, hv, hi⟩ := InitBuffers_fields S
  obtain ⟨hv', hi'⟩ := InitDelegate_buffers (InitBuffers S)
  have hbuf : InitBuffers (InitRendering S) = InitRendering S :=
    InitBuffers_of_valid _ (by unfold InitRendering; rw [hv']; exact hv)
      (by unfold InitRendering; rw [hi']; exact hi)
  show InitDelegate (InitBuffers (InitRendering S)) = InitRendering S
  rw [hbuf]
  exact InitDelegate_of_valid _ hT.2

/-- C9. With the renderer module loaded, from an object whose handle is invalid and whose
callback is not registered: after every sequence of `Init` and `Release` calls on the rendering
thread the callback is registered at most once, and exactly when the stored handle is valid.
In every state so reached, `Init` leaves the callback registered once under a valid handle,
`Init` while the handle is valid changes neither the host's delegates nor the handle and a
second `Init` changes nothing; `Release` leaves the callback unregistered and the handle
invalid, and a second `Release` changes nothing. -/
theorem overlay_hook_lifecycle (S0 : FVdbResearchRendering)
    (hm : S0.RendererModule.isSome = true) (hh : S0.RenderDelegateHandle.IsValid = false)
    (h0 : RegisteredCount S0 = 0) (Calls : List LifecycleCall) :
    RegisteredCount (RunLifecycle S0 Calls) ≤ 1 ∧
    (RegisteredCount (RunLifecycle S0 Calls) = 1 ↔
      (RunLifecycle S0 Calls).RenderDelegateHandle.IsValid = true) ∧
    ((InitRendering (RunLifecycle S0 Calls)).RenderDelegateHandle.IsValid = true ∧
      RegisteredCount (InitRendering (RunLifecycle S0 Calls)) = 1) ∧
    ((RunLifecycle S0 Calls).RenderDelegateHandle.IsValid = true →
      (InitRendering (RunLifecycle S0 Calls)).RendererModule =
        (RunLifecycle S0 Calls).RendererModule ∧
      (InitRendering (RunLifecycle S0 Calls)).RenderDelegateHandle =
        (RunLifecycle S0 Calls).RenderDelegateHandle) ∧
    InitRendering (InitRendering (RunLifecycle S0 Calls)) =
      InitRendering (RunLifecycle S0 Calls) ∧
    ((ReleaseRendering (RunLifecycle S0 Calls)).RenderDelegateHandle.IsValid = false ∧
      RegisteredCount (ReleaseRendering (RunLifecycle S0 Calls)) = 0) ∧
    ReleaseRendering (ReleaseRendering (RunLifecycle S0 Calls)) =
      ReleaseRendering (RunLifecycle S0 Calls) := by
  have hS := HookInvariant_RunLifecycle Calls S0 (HookInvariant_of_uninitialized S0 hm hh h0)
  have hI := HookInvariant_InitDelegate _ (HookInvariant_InitBuffers _ hS)
  have hR := HookInvariant_ReleaseDelegate _ hS
  refine ⟨(HookInvariant_count _ hS).1, (HookInvariant_count _ hS).2, ⟨hI.2, ?_⟩,
    InitRendering_of_active _, InitRendering_idempotent _ hS,
    ⟨ReleaseDelegate_handle _, ?_⟩, ?_⟩
  · exact (HookInvariant_count _ hI.1).2.mpr hI.2
  · show (OwnDelegates (ReleaseDelegate _)).length = 0
    rw [hR.2]
    rfl
  · exact ReleaseDelegate_of_invalid _ (ReleaseDelegate_handle _)

/-- From a fresh object next to two foreign delegates: after `Init, Init, Release` the callback
is not registered, a further `Init` registers it once, a further `Release` leaves it out. -/
theorem overlay_hook_lifecycle_witness :
    RegisteredCount freshRendering = 0 ∧
    RegisteredCount (InitRendering (RunLifecycle freshRendering
      [LifecycleCall.Init, LifecycleCall.Init, LifecycleCall.Release])) = 1 ∧
    RegisteredCount (ReleaseRendering (RunLifecycle freshRendering
      [LifecycleCall.Init, LifecycleCall.Init, LifecycleCall.Release])) = 0 ∧
    RegisteredCount (RunLifecycle freshRendering
      [LifecycleCall.Init, LifecycleCall.Init, LifecycleCall.Release]) ≤ 1 := by
  have h := overlay_hook_lifecycle freshRendering rfl rfl rfl
    [LifecycleCall.Init, LifecycleCall.Init, LifecycleCall.Release]
  exact ⟨rfl, h.2.2.1.2, h.2.2.2.2.2.1.2, h.1⟩

/-- The same run, state by state. -/
theorem overlay_hook_trace :
    (RunLifecycle freshRendering [LifecycleCall.Init]).RenderDelegateHandle.ID = 3 ∧
    OwnDelegates (RunLifecycle freshRendering [LifecycleCall.Init]) = [(3, 7)] ∧
    OwnDelegates (RunLifecycle freshRendering [LifecycleCall.Init, LifecycleCall.Init]) =
      [(3, 7)] ∧
    OwnDelegates (RunLifecycle freshRendering
      [LifecycleCall.Init, LifecycleCall.Init, LifecycleCall.Release]) = [] ∧
    (RunLifecycle freshRendering
      [LifecycleCall.Init, LifecycleCall.Init, LifecycleCall.Release]).RenderDelegateHandle.ID
      = 0 := by
  decide

/-! ## Unit-cube vertex buffer -/

/-- C10, evaluated on the code: after the first `InitBuffers` the uploaded vertex array has all
eight positions written, the eight corners of the unit cube, but the UV of vertices `4` to `7`
was never assigned: the four "back face" lines assign the UV of vertices `0` to `3` a second
time. -/
theorem InitBuffers_vertices_UV_unwritten :
    (InitBuffers freshRendering).VertexBufferRHI = some UnitCubeVertices ∧
    UnitCubeVertices.map (fun v => v.UV) =
      [some (1, 1), some (1, 0), some (0, 1), some (0, 0), none, none, none, none] ∧
    UnitCubeVertices.map (fun v => v.Position) =
      [some (0, 0, 0, 1), some (1, 0, 0, 1), some (0, 1, 0, 1), some (1, 1, 0, 1),
       some (0, 0, 1, 1), some (1, 0, 1, 1), some (0, 1, 1, 1), some (1, 1, 1, 1)] ∧
    (UnitCubeVertices.map (fun v => v.Position)).Nodup ∧
    ¬ (∀ v ∈ UnitCubeVertices, v.Position.isSome = true ∧ v.UV.isSome = true) := by
  have hUV : UnitCubeVertices.map (fun v => v.UV) =
      [some (1, 1), some (1, 0), some (0, 1), some (0, 0), none, none, none, none] := by
    simp [UnitCubeVertices, SetPosition, SetUV, assignAt, List.replicate]
  have hP : UnitCubeVertices.map (fun v => v.Position) =
      [some (0, 0, 0, 1), some (1, 0, 0, 1), some (0, 1, 0, 1), some (1, 1, 0, 1),
       some (0, 0, 1, 1), some (1, 0, 1, 1), some (0, 1, 1, 1), some (1, 1, 1, 1)] := by
    simp [UnitCubeVertices, SetPosition, SetUV, assignAt, List.replicate, BboxMin, BboxMax]
  refine ⟨by simp [InitBuffers, freshRendering], hUV, hP, ?_, ?_⟩
  · rw [hP]
    simp
  · intro h
    have hall : ∀ t ∈ UnitCubeVertices.map (fun v => v.UV), t.isSome = true := by
      intro t ht
      obtain ⟨v, hv, rfl⟩ := List.mem_map.mp ht
      exact (h v hv).2
    rw [hUV] at hall
    have := hall none (by simp)
    simp at this

end VdbResearch
